import Mathlib

/-!
Verification development for `admingorm` (go-advanced-admin/orm-gorm).

A shallow embedding of `utils.go` and `integrator.go`.

* Go strings are Lean `String`s; the functions of package `strings` the code
  calls are written over the character lists.
* A struct type is its name and its ordered list of declared fields, exported
  or not and none embedded, and the `FieldByName` of `reflect` is the lookup of
  the first field with the given non-empty name. `Value.Interface()` panics on
  an unexported field.
* The model argument of the primary-key functions is any `Model`; the model and
  instance arguments of the other functions, which start with
  `reflect.TypeOf(model).Elem()`, are non-nil pointers to structs and are given
  by the struct they point to.
* A struct tag is kept in its parsed form, the list of `key:"value"` pairs, and
  `StructTag.Lookup` is the lookup of the first pair with the key.
* The gorm handle `*gorm.DB` is an external collaborator: schema parsing and the
  outcome of a statement are fields of `DB`, and every statement handed to it
  is appended to the `World`'s call log.
-/

set_option autoImplicit false

namespace admingorm

/-! ## Package `strings` -/

namespace strings

/-- Go `strings.HasPrefix(s, pre)`. -/
def HasPrefix (s pre : String) : Bool :=
  pre.data.isPrefixOf s.data

/-- Go `strings.TrimPrefix(s, pre)`: `s` without the leading `pre`, or `s` itself. -/
def TrimPrefix (s pre : String) : String :=
  if HasPrefix s pre then String.mk (s.data.drop pre.data.length) else s

/-- Splitting of a character list around every occurrence of the one-character
separator `sep`; the result always has one more element than there are
occurrences. -/
def splitChars (sep : Char) : List Char → List (List Char)
  | [] => [[]]
  | c :: cs =>
    if c = sep then [] :: splitChars sep cs
    else
      match splitChars sep cs with
      | [] => [[c]]
      | p :: ps => (c :: p) :: ps

/-- Go `strings.Split(s, sep)` for a one-character separator. -/
def Split (s : String) (sep : Char) : List String :=
  (splitChars sep s.data).map String.mk

/-- Go `strings.Join(elems, sep)`. -/
def Join : List String → String → String
  | [], _ => ""
  | [e], _ => e
  | e :: f :: rest, sep => e ++ sep ++ Join (f :: rest) sep

end strings

/-! ## Package `reflect` -/

/-- The declared type of a struct field (`reflect.StructField.Type`); the code
returns it and never looks inside. -/
inductive FieldType
  | bool
  | int
  | uint
  | string
  | float64
  | named (pkg name : String)
  deriving DecidableEq, Repr

/-- Go `reflect.StructTag`, in parsed form: the `key:"value"` pairs in order. -/
abbrev StructTag := List (String × String)

/-- Go `StructTag.Lookup(key)`: the value of the first pair with the key. -/
def StructTag.Lookup (tag : StructTag) (key : String) : Option String :=
  match tag with
  | [] => none
  | (k, v) :: rest => if k = key then some v else StructTag.Lookup rest key

/-- Go `reflect.StructField`; `PkgPath` is empty for an exported field and the
package path for an unexported one. -/
structure StructField where
  Name : String
  PkgPath : String
  Type_ : FieldType
  Tag : StructTag
  deriving DecidableEq, Repr

/-! ## utils.go -/

/-- The `for _, part := range tagParts` loop of `getGormColumnName`: the first
part starting with `column:`, with that start trimmed. -/
def getGormColumnName.loop : List String → Option String
  | [] => none
  | part :: rest =>
    if strings.HasPrefix part "column:" then some (strings.TrimPrefix part "column:")
    else getGormColumnName.loop rest

/-- The function `getGormColumnName` of utils.go. -/
def getGormColumnName (structField : StructField) : String :=
  match structField.Tag.Lookup "gorm" with
  | none => structField.Name
  | some tag =>
    let tagParts := strings.Split tag ';'
    match getGormColumnName.loop tagParts with
    | some column => column
    | none => structField.Name

/-- Go `interface{}` values the code stores and passes on without looking
inside: field values, identifiers and query arguments. -/
inductive Any
  | nil
  | bool (b : Bool)
  | int (n : Int)
  | string (s : String)
  deriving DecidableEq, Repr

/-- A struct type: its name and its declared fields in order, exported or not;
none is embedded. -/
structure StructType where
  Name : String
  Fields : List StructField
  deriving DecidableEq, Repr

/-- Go `reflect.Type.FieldByName(name)` on a struct type: the first field with
that name, which is not looked for when the name is empty. -/
def StructType.FieldByName (t : StructType) (name : String) : Option StructField :=
  if name = "" then none else t.Fields.find? (fun f => f.Name == name)

/-- A struct value: every declared field with the value it holds. -/
structure StructValue where
  Name : String
  Fields : List (StructField × Any)
  deriving DecidableEq, Repr

/-- Go `reflect.Value.Type()` of a struct value. -/
def StructValue.Type_ (v : StructValue) : StructType :=
  ⟨v.Name, v.Fields.map Prod.fst⟩

/-- Go `reflect.Value.FieldByName(name)` on a struct value: the field found and
the value it holds; `none` is the zero `Value`, the one whose `IsValid()` is
false. -/
def StructValue.Lookup (v : StructValue) (name : String) : Option (StructField × Any) :=
  if name = "" then none
  else v.Fields.find? (fun p => p.1.Name == name)

/-- Go `reflect.Value.FieldByName(name)` followed by `Interface()` on a field
that may be read; `none` is the zero `Value`, the one whose `IsValid()` is
false. -/
def StructValue.FieldByName (v : StructValue) (name : String) : Option Any :=
  if name = "" then none
  else (v.Fields.find? (fun p => p.1.Name == name)).map Prod.snd

/-- Go `reflect.Type` of what a model argument can hold. -/
inductive RType
  | bool
  | int
  | string
  | interface
  | struct (t : StructType)
  | ptr (elem : RType)
  deriving DecidableEq, Repr

/-- Go `reflect.Type.Name()`: the name of a defined type, empty for an unnamed one. -/
def RType.Name : RType → String
  | .bool => "bool"
  | .int => "int"
  | .string => "string"
  | .interface => ""
  | .struct t => t.Name
  | .ptr _ => ""

/-- The `model interface{}` argument of the primary-key functions: the nil
interface, a scalar, a struct, a nil pointer or a pointer to one of these
(`ptr nilInterface` points to an interface variable holding nil). -/
inductive Model
  | nilInterface
  | bool (b : Bool)
  | int (n : Int)
  | string (s : String)
  | struct (v : StructValue)
  | nilPtr (elem : RType)
  | ptr (target : Model)
  deriving DecidableEq, Repr

/-- Go `reflect.Kind`, the kinds the model arguments have. -/
inductive Kind
  | Invalid
  | Bool
  | Int
  | String
  | Struct
  | Ptr
  deriving DecidableEq, Repr

/-- Go `reflect.ValueOf(model).Kind()`. -/
def Model.Kind : Model → Kind
  | .nilInterface => .Invalid
  | .bool _ => .Bool
  | .int _ => .Int
  | .string _ => .String
  | .struct _ => .Struct
  | .nilPtr _ => .Ptr
  | .ptr _ => .Ptr

/-- Go `reflect.Value.IsNil()`, called on pointers only. -/
def Model.IsNil : Model → Bool
  | .nilPtr _ => true
  | _ => false

/-- Go `reflect.Value.Elem()`, called on non-nil pointers only. -/
def Model.Elem : Model → Model
  | .ptr target => target
  | m => m

/-- Go `reflect.Value.Type()`. -/
def Model.Type_ : Model → RType
  | .nilInterface => .interface
  | .bool _ => .bool
  | .int _ => .int
  | .string _ => .string
  | .struct v => .struct v.Type_
  | .nilPtr elem => .ptr elem
  | .ptr target => .ptr target.Type_

/-! ## Package `gorm` -/

/-- The part of gorm `schema.Field` the code reads. -/
structure Field where
  Name : String
  DBName : String
  deriving DecidableEq, Repr

/-- The part of gorm `schema.Schema` the code reads. -/
structure Schema where
  PrioritizedPrimaryField : Option Field
  deriving DecidableEq, Repr

/-- Go `map[string]interface{}`: a partial function from keys to values. -/
abbrev GoMap := String → Option Any

/-- Go `make(map[string]interface{})`. -/
def GoMap.empty : GoMap := fun _ => none

/-- Go `m[key] = value`. -/
def GoMap.set (m : GoMap) (key : String) (value : Any) : GoMap :=
  fun k => if k = key then some value else m k

/-- A chained clause of a gorm statement. -/
inductive Clause
  | Model (value : StructValue)
  | Select (query : String)
  | SelectFields (fields : List String)
  | Where (query : String) (args : List Any)
  | WhereMap (conds : GoMap)

/-- The finisher method that executes a gorm statement, with its argument
other than a freshly allocated destination. -/
inductive Finisher
  | Find (conds : StructValue)
  | First (conds : StructValue)
  | Create (value : StructValue)
  | Save (value : StructValue)
  | Updates (values : GoMap)
  | Delete (value : StructValue)

/-- One statement handed to the data-access layer: the chained clauses in call
order and the finisher. -/
structure DBCall where
  chain : List Clause
  finisher : Finisher

/-- What gorm reports for an executed statement: `Error`, `RowsAffected` and the
rows written to the destination. -/
structure DBResult where
  Error : Option String
  RowsAffected : Int
  rows : List StructValue

/-- The gorm handle `*gorm.DB`: `parse` is `Statement.Parse` on a pointer to a value
of the given type, `exec` is the outcome of a statement. -/
structure DB where
  parse : RType → Except String Schema
  exec : DBCall → DBResult

/-- What the operations act on besides their arguments: the statements handed to
the data-access layer so far and the lines printed to standard output. -/
structure World where
  calls : List DBCall
  stdout : List String

/-! ## integrator.go -/

/-- The errors the functions return, one constructor per message. -/
inductive Error
  /-- The message `model pointer is nil`. -/
  | modelPointerNil
  /-- The message `model is neither a struct nor a pointer to a struct`. -/
  | notStructNorPointer
  /-- The message `failed to parse model: %v`. -/
  | failedToParse (err : String)
  /-- The message `no primary field found for model %s`. -/
  | noPrimaryField (modelName : String)
  /-- The message `primary key field %s not found in model %s`. -/
  | primaryKeyFieldNotFound (fieldName modelName : String)
  /-- The message `field %s not found in model`, which `FetchInstancesOnlyFields`
  spells `field %s not foun in model`. -/
  | fieldNotFound (fieldName : String)
  /-- The message `no instance found with %s = %v`. -/
  | noInstanceFound (primaryKey : String) (instanceID : Any)
  /-- The error of the data-access layer, returned as it is. -/
  | db (err : String)
  deriving DecidableEq, Repr

/-- The error kinds of the specification. -/
inductive ErrorKind
  | InvalidModelShape
  | SchemaParseFailed
  | NoPrimaryKeyFound
  | PrimaryKeyFieldMissing
  | UnknownField
  | NotFound
  | QueryFailed
  deriving DecidableEq, Repr

/-- The kind of each error. -/
def Error.kind : Error → ErrorKind
  | .modelPointerNil => .InvalidModelShape
  | .notStructNorPointer => .InvalidModelShape
  | .failedToParse _ => .SchemaParseFailed
  | .noPrimaryField _ => .NoPrimaryKeyFound
  | .primaryKeyFieldNotFound _ _ => .PrimaryKeyFieldMissing
  | .fieldNotFound _ => .UnknownField
  | .noInstanceFound _ _ => .NotFound
  | .db _ => .QueryFailed

/-- How a call ends: a value with a nil error, an error with no value, or a
panic of the `reflect` package. -/
inductive Outcome (α : Type)
  | ok (value : α)
  | err (e : Error)
  | panic
  deriving DecidableEq, Repr

/-- The type `Integrator`. -/
structure Integrator where
  DB : DB

/-- Lines 25-34 and 60-69: the value the primary-key functions go on with. -/
def Integrator.modelValue (model : Model) : Except Error Model :=
  if model.Kind = Kind.Ptr then
    if model.IsNil then .error .modelPointerNil
    else .ok model.Elem
  else if model.Kind ≠ Kind.Struct then .error .notStructNorPointer
  else .ok model

/-- The method `Integrator.GetPrimaryKeyValue`; `Value.FieldByName` panics on a
value that is not a struct. The field read through `Interface()` is the one the
gorm schema designates, and a gorm schema holds exported fields only. -/
def Integrator.GetPrimaryKeyValue (i : Integrator) (model : Model) : Outcome Any :=
  match Integrator.modelValue model with
  | .error e => .err e
  | .ok modelValue =>
    let modelType := modelValue.Type_
    match i.DB.parse modelType with
    | .error err => .err (.failedToParse err)
    | .ok schema =>
      match schema.PrioritizedPrimaryField with
      | none => .err (.noPrimaryField modelType.Name)
      | some primaryField =>
        match modelValue with
        | .struct v =>
          match v.FieldByName primaryField.Name with
          | none => .err (.primaryKeyFieldNotFound primaryField.Name modelType.Name)
          | some primaryKeyValue => .ok primaryKeyValue
        | _ => .panic

/-- The method `Integrator.GetPrimaryKeyType`; `Type.FieldByName` panics on a
type that is not a struct type. -/
def Integrator.GetPrimaryKeyType (i : Integrator) (model : Model) : Outcome FieldType :=
  match Integrator.modelValue model with
  | .error e => .err e
  | .ok modelValue =>
    let modelType := modelValue.Type_
    match i.DB.parse modelType with
    | .error err => .err (.failedToParse err)
    | .ok schema =>
      match schema.PrioritizedPrimaryField with
      | none => .err (.noPrimaryField modelType.Name)
      | some primaryField =>
        match modelType with
        | .struct t =>
          match t.FieldByName primaryField.Name with
          | none => .err (.primaryKeyFieldNotFound primaryField.Name modelType.Name)
          | some primaryKeyField => .ok primaryKeyField.Type_
        | _ => .panic

/-- Handing a statement to the data-access layer: it is appended to the call
log and its outcome is what the handle reports. -/
def World.run (w : World) (db : DB) (call : DBCall) : DBResult × World :=
  (db.exec call, { w with calls := w.calls ++ [call] })

/-- The method `Integrator.FetchInstances`; `model` is the struct the pointer
argument points to. -/
def Integrator.FetchInstances (i : Integrator) (model : StructValue) (w : World) :
    Except Error (List StructValue) × World :=
  let (result, w1) := w.run i.DB ⟨[], .Find model⟩
  match result.Error with
  | some err => (.error (.db err), w1)
  | none => (.ok result.rows, w1)

/-- The loop filling `selectFields` (lines 116-124, 144-152, 218-226): the
column of every requested field in order, or the error of the first name that
is not a field of the type. -/
def Integrator.selectFields (modelType : StructType) : List String → Except Error (List String)
  | [] => .ok []
  | fieldName :: rest =>
    match modelType.FieldByName fieldName with
    | some field =>
      match Integrator.selectFields modelType rest with
      | .ok columns => .ok (getGormColumnName field :: columns)
      | .error e => .error e
    | none => .error (.fieldNotFound fieldName)

/-- The method `Integrator.FetchInstancesOnlyFields`; `model` is the struct the
pointer argument points to. -/
def Integrator.FetchInstancesOnlyFields (i : Integrator) (model : StructValue)
    (fields : List String) (w : World) : Except Error (List StructValue) × World :=
  let modelType := model.Type_
  match Integrator.selectFields modelType fields with
  | .error e => (.error e, w)
  | .ok selectFields =>
    let selectFieldStr := strings.Join selectFields ", "
    let (result, w1) := w.run i.DB ⟨[.Select selectFieldStr], .Find model⟩
    match result.Error with
    | some err => (.error (.db err), w1)
    | none => (.ok result.rows, w1)

/-- The loop over `searchFields` (lines 155-166), appending to
`searchConditions` and `searchArgs`. -/
def Integrator.searchLoop (modelType : StructType) (query : String) :
    List String → List String → List Any → Except Error (List String × List Any)
  | [], searchConditions, searchArgs => .ok (searchConditions, searchArgs)
  | searchField :: rest, searchConditions, searchArgs =>
    match modelType.FieldByName searchField with
    | some field =>
      let columnName := getGormColumnName field
      Integrator.searchLoop modelType query rest
        (searchConditions ++ [columnName ++ " LIKE ?"])
        (searchArgs ++ [Any.string ("%" ++ query ++ "%")])
    | none => .error (.fieldNotFound searchField)

/-- The method `Integrator.FetchInstancesOnlyFieldWithSearch`; `model` is the
struct the pointer argument points to. -/
def Integrator.FetchInstancesOnlyFieldWithSearch (i : Integrator) (model : StructValue)
    (fields : List String) (query : String) (searchFields : List String) (w : World) :
    Except Error (List StructValue) × World :=
  let modelType := model.Type_
  match Integrator.selectFields modelType fields with
  | .error e => (.error e, w)
  | .ok selectFields =>
    let selectFieldStr := strings.Join selectFields ", "
    match Integrator.searchLoop modelType query searchFields [] [] with
    | .error e => (.error e, w)
    | .ok (searchConditions, searchArgs) =>
      let searchConditionStr := strings.Join searchConditions " OR "
      let (result, w1) :=
        w.run i.DB ⟨[.Select selectFieldStr, .Where searchConditionStr searchArgs], .Find model⟩
      match result.Error with
      | some err => (.error (.db err), w1)
      | none => (.ok result.rows, w1)

/-- The method `Integrator.DeleteInstance`; `model` is the struct the pointer
argument points to. -/
def Integrator.DeleteInstance (i : Integrator) (model : StructValue) (instanceID : Any)
    (w : World) : Except Error Unit × World :=
  let modelType := model.Type_
  match i.DB.parse (.struct modelType) with
  | .error err => (.error (.failedToParse err), w)
  | .ok schema =>
    match schema.PrioritizedPrimaryField with
    | none => (.error (.noPrimaryField modelType.Name), w)
    | some primaryField =>
      let primaryKey := primaryField.DBName
      let condition := GoMap.empty.set primaryKey instanceID
      let (result, w1) := w.run i.DB ⟨[.WhereMap condition], .Delete model⟩
      match result.Error with
      | some err => (.error (.db err), w1)
      | none =>
        let w2 := { w1 with stdout := w1.stdout ++
          ["Deleted " ++ toString result.RowsAffected ++ " instances of " ++ modelType.Name ++ "\n"] }
        if result.RowsAffected = 0 then
          (.error (.noInstanceFound primaryKey instanceID), w2)
        else (.ok (), w2)

/-- The method `Integrator.FetchInstanceOnlyFields`; `model` is the struct the
pointer argument points to, and the result `none` is the fresh instance left
as allocated. -/
def Integrator.FetchInstanceOnlyFields (i : Integrator) (model : StructValue) (id : Any)
    (fields : List String) (w : World) : Except Error (Option StructValue) × World :=
  let modelType := model.Type_
  match Integrator.selectFields modelType fields with
  | .error e => (.error e, w)
  | .ok selectFields =>
    let selectFieldStr := strings.Join selectFields ", "
    match i.DB.parse (.struct modelType) with
    | .error err => (.error (.failedToParse err), w)
    | .ok schema =>
      match schema.PrioritizedPrimaryField with
      | none => (.error (.noPrimaryField modelType.Name), w)
      | some primaryField =>
        let primaryKey := primaryField.DBName
        let (result, w1) :=
          w.run i.DB ⟨[.Select selectFieldStr, .Where (primaryKey ++ " = ?") [id]], .First model⟩
        match result.Error with
        | some err => (.error (.db err), w1)
        | none => (.ok result.rows.head?, w1)

/-- The method `Integrator.FetchInstance`; `model` is the struct the pointer
argument points to. -/
def Integrator.FetchInstance (i : Integrator) (model : StructValue) (instanceID : Any)
    (w : World) : Except Error (Option StructValue) × World :=
  let modelType := model.Type_
  match i.DB.parse (.struct modelType) with
  | .error err => (.error (.failedToParse err), w)
  | .ok schema =>
    match schema.PrioritizedPrimaryField with
    | none => (.error (.noPrimaryField modelType.Name), w)
    | some primaryField =>
      let primaryKey := primaryField.DBName
      let (result, w1) := w.run i.DB ⟨[.Where (primaryKey ++ " = ?") [instanceID]], .First model⟩
      match result.Error with
      | some err => (.error (.db err), w1)
      | none => (.ok result.rows.head?, w1)

/-- Go `return result.Error` for a statement that yields no value. -/
def Integrator.errorOf (result : DBResult) : Outcome Unit :=
  match result.Error with
  | some err => .err (.db err)
  | none => .ok ()

/-- The method `Integrator.CreateInstance`; `instance` is the struct the pointer
argument points to. -/
def Integrator.CreateInstance (i : Integrator) (inst : StructValue) (w : World) :
    Outcome Unit × World :=
  let (result, w1) := w.run i.DB ⟨[], .Create inst⟩
  (Integrator.errorOf result, w1)

/-- The method `Integrator.UpdateInstance`. -/
def Integrator.UpdateInstance (i : Integrator) (inst : StructValue) (primaryKey : Any)
    (w : World) : Outcome Unit × World :=
  let modelType := inst.Type_
  match i.DB.parse (.struct modelType) with
  | .error err => (.err (.failedToParse err), w)
  | .ok schema =>
    match schema.PrioritizedPrimaryField with
    | none => (.err (.noPrimaryField modelType.Name), w)
    | some primaryField =>
      let primaryKeyDBName := primaryField.DBName
      let (result, w1) := w.run i.DB
        ⟨[.Model inst, .Where (primaryKeyDBName ++ " = ?") [primaryKey]], .Save inst⟩
      (Integrator.errorOf result, w1)

/-- The method `Integrator.CreateInstanceOnlyFields`. -/
def Integrator.CreateInstanceOnlyFields (i : Integrator) (inst : StructValue)
    (fields : List String) (w : World) : Outcome Unit × World :=
  if fields.length = 0 then
    let (result, w1) := w.run i.DB ⟨[], .Create inst⟩
    (Integrator.errorOf result, w1)
  else
    let (result, w1) := w.run i.DB ⟨[.SelectFields fields], .Create inst⟩
    (Integrator.errorOf result, w1)

/-- The loop filling `updateData` (lines 335-341): a name that is not a field
is an error, and `fieldValue.Interface()` panics on an unexported field. -/
def Integrator.updateLoop (modelValue : StructValue) :
    List String → GoMap → Outcome GoMap
  | [], updateData => .ok updateData
  | fieldName :: rest, updateData =>
    match modelValue.Lookup fieldName with
    | none => .err (.fieldNotFound fieldName)
    | some (field, fieldValue) =>
      if field.PkgPath = "" then
        Integrator.updateLoop modelValue rest (updateData.set fieldName fieldValue)
      else .panic

/-- The method `Integrator.UpdateInstanceOnlyFields`. -/
def Integrator.UpdateInstanceOnlyFields (i : Integrator) (inst : StructValue)
    (fields : List String) (primaryKey : Any) (w : World) : Outcome Unit × World :=
  let modelType := inst.Type_
  let modelValue := inst
  match i.DB.parse (.struct modelType) with
  | .error err => (.err (.failedToParse err), w)
  | .ok schema =>
    match schema.PrioritizedPrimaryField with
    | none => (.err (.noPrimaryField modelType.Name), w)
    | some primaryField =>
      let primaryKeyDBName := primaryField.DBName
      if fields.length = 0 then
        let (result, w1) := w.run i.DB
          ⟨[.Model inst, .Where (primaryKeyDBName ++ " = ?") [primaryKey]], .Save inst⟩
        (Integrator.errorOf result, w1)
      else
        match Integrator.updateLoop modelValue fields GoMap.empty with
        | .err e => (.err e, w)
        | .panic => (.panic, w)
        | .ok updateData =>
          let (updateData, fields) :=
            if (updateData primaryField.Name).isNone then
              (updateData.set primaryField.Name primaryKey, fields ++ [primaryField.Name])
            else (updateData, fields)
          let (result, w1) := w.run i.DB
            ⟨[.Model inst, .Where (primaryKeyDBName ++ " = ?") [primaryKey],
              .SelectFields fields], .Updates updateData⟩
          (Integrator.errorOf result, w1)

/-! ## A sample model -/

/-- A `User` with the primary key `ID`, a `Name` stored in the column `name_col`
and an `Email` stored in the column `email_col`. -/
def Sample.user : StructValue :=
  ⟨"User",
    [(⟨"ID", "", .uint, [("gorm", "primaryKey")]⟩, .int 7),
     (⟨"Name", "", .string, [("json", "name"), ("gorm", "column:name_col")]⟩, .string "Bob"),
     (⟨"Email", "", .string, [("gorm", "size:64;column:email_col")]⟩, .string "a@b.com")]⟩

/-- A `hidden` with the primary key `ID` and the unexported field `name`. -/
def Sample.hidden : StructValue :=
  ⟨"hidden",
    [(⟨"ID", "", .uint, []⟩, .int 1),
     (⟨"name", "main", .string, []⟩, .string "n")]⟩

/-- A `Note` without a primary key. -/
def Sample.note : StructValue :=
  ⟨"Note", [(⟨"Text", "", .string, []⟩, .string "hello")]⟩

/-- A schema parser in the manner of gorm: it looks through pointers, rejects
what is not a struct, and the primary key of a struct is its exported field
`ID`, stored in the column `id`. -/
def Sample.parse : RType → Except String Schema
  | .struct t =>
    .ok ⟨((t.FieldByName "ID").filter (fun f => f.PkgPath == "")).map (fun f => ⟨f.Name, "id"⟩)⟩
  | .ptr elem => Sample.parse elem
  | _ => .error "unsupported data type"

/-- A handle whose statements succeed and affect one row. -/
def Sample.integrator : Integrator :=
  ⟨⟨Sample.parse, fun _ => ⟨none, 1, []⟩⟩⟩

/-- A handle whose statements succeed and affect no row. -/
def Sample.integratorNoRows : Integrator :=
  ⟨⟨Sample.parse, fun _ => ⟨none, 0, []⟩⟩⟩

/-- The world before any call. -/
def Sample.world : World := ⟨[], []⟩

/-! ## Strings -/

theorem strings.splitChars_not_mem (sep : Char) (l : List Char) (h : sep ∉ l) :
    strings.splitChars sep l = [l] := by
  induction l with
  | nil => rfl
  | cons c cs ih =>
    have hc : c ≠ sep := fun e => h (by simp [e])
    have hcs : sep ∉ cs := fun e => h (by simp [e])
    simp [strings.splitChars, hc, ih hcs]

theorem strings.splitChars_append_sep (sep : Char) (a rest : List Char) (h : sep ∉ a) :
    strings.splitChars sep (a ++ sep :: rest) = a :: strings.splitChars sep rest := by
  induction a with
  | nil => simp [strings.splitChars]
  | cons c cs ih =>
    have hc : c ≠ sep := fun e => h (by simp [e])
    have hcs : sep ∉ cs := fun e => h (by simp [e])
    simp [strings.splitChars, hc, ih hcs]

theorem strings.Split_Join (segs : List String) (hne : segs ≠ [])
    (hsep : ∀ s ∈ segs, ';' ∉ s.data) :
    strings.Split (strings.Join segs ";") ';' = segs := by
  induction segs with
  | nil => exact absurd rfl hne
  | cons e rest ih =>
    cases rest with
    | nil =>
      have he : ';' ∉ e.data := hsep e (by simp)
      simp [strings.Split, strings.Join, strings.splitChars_not_mem _ _ he]
    | cons f rest =>
      have he : ';' ∉ e.data := hsep e (by simp)
      have ih2 := ih (by simp) (fun s hs => hsep s (List.mem_cons_of_mem _ hs))
      have hdata : (strings.Join (e :: f :: rest) ";").data
          = e.data ++ ';' :: (strings.Join (f :: rest) ";").data := by
        simp [strings.Join, String.data_append]
      unfold strings.Split at ih2 ⊢
      rw [hdata, strings.splitChars_append_sep _ _ _ he]
      simp [ih2]

theorem strings.HasPrefix_iff (s pre : String) :
    strings.HasPrefix s pre = true ↔ ∃ r, s = pre ++ r := by
  unfold strings.HasPrefix
  rw [ List.isPrefixOf_iff_prefix]
  constructor
  · rintro ⟨t, ht⟩
    exact ⟨String.mk t, String.ext (by simp [String.data_append, ht])⟩
  · rintro ⟨r, rfl⟩
    exact ⟨r.data, by simp [String.data_append]⟩

theorem strings.TrimPrefix_append (pre r : String) :
    strings.TrimPrefix (pre ++ r) pre = r := by
  have h : strings.HasPrefix (pre ++ r) pre = true :=
    (strings.HasPrefix_iff _ _).2 ⟨r, rfl⟩
  unfold strings.TrimPrefix
  rw [if_pos h]
  exact String.ext (by simp [String.data_append])

/-! ## Column names -/

theorem getGormColumnName.loop_none (parts : List String)
    (h : ∀ s ∈ parts, ¬ ∃ r, s = "column:" ++ r) : getGormColumnName.loop parts = none := by
  induction parts with
  | nil => rfl
  | cons part rest ih =>
    have hp : strings.HasPrefix part "column:" = false := by
      cases hb : strings.HasPrefix part "column:" with
      | false => rfl
      | true => exact absurd ((strings.HasPrefix_iff _ _).1 hb) (h part (by simp))
    simp [getGormColumnName.loop, hp, ih (fun s hs => h s (List.mem_cons_of_mem _ hs))]

theorem getGormColumnName.loop_first (before after : List String) (r : String)
    (h : ∀ s ∈ before, ¬ ∃ r, s = "column:" ++ r) :
    getGormColumnName.loop (before ++ ("column:" ++ r) :: after) = some r := by
  induction before with
  | nil =>
    have hp : strings.HasPrefix ("column:" ++ r) "column:" = true :=
      (strings.HasPrefix_iff _ _).2 ⟨r, rfl⟩
    simp [getGormColumnName.loop, hp, strings.TrimPrefix_append]
  | cons part rest ih =>
    have hp : strings.HasPrefix part "column:" = false := by
      cases hb : strings.HasPrefix part "column:" with
      | false => rfl
      | true => exact absurd ((strings.HasPrefix_iff _ _).1 hb) (h part (by simp))
    simp [getGormColumnName.loop, hp, ih (fun s hs => h s (List.mem_cons_of_mem _ hs))]

/-- C2: a field without a gorm tag resolves to its name; for a gorm tag made of
the `;`-separated segments `segs`, the field resolves to its name when no
segment starts with `column:`, and to the text after `column:` of the first
segment that starts with it otherwise. -/
theorem getGormColumnName_spec (structField : StructField) :
    (structField.Tag.Lookup "gorm" = none →
      getGormColumnName structField = structField.Name) ∧
    (∀ segs : List String, segs ≠ [] → (∀ s ∈ segs, ';' ∉ s.data) →
      structField.Tag.Lookup "gorm" = some (strings.Join segs ";") →
      ((∀ s ∈ segs, ¬ ∃ r, s = "column:" ++ r) →
        getGormColumnName structField = structField.Name) ∧
      (∀ (before after : List String) (r : String),
        segs = before ++ ("column:" ++ r) :: after →
        (∀ s ∈ before, ¬ ∃ r, s = "column:" ++ r) →
        getGormColumnName structField = r)) := by
  refine ⟨fun h => by simp [getGormColumnName, h], ?_⟩
  intro segs hne hsep htag
  have hsplit := strings.Split_Join segs hne hsep
  refine ⟨fun hno => ?_, fun before after r hsegs hbefore => ?_⟩
  · simp [getGormColumnName, htag, hsplit, getGormColumnName.loop_none segs hno]
  · subst hsegs
    simp [getGormColumnName, htag, hsplit,
      getGormColumnName.loop_first before after r hbefore]

/-- Witness of C2: the tag `size:20;column:foo;index` resolves to `foo`. -/
theorem getGormColumnName_spec_witness :
    getGormColumnName ⟨"Name", "", .string, [("gorm", "size:20;column:foo;index")]⟩ = "foo" :=
  ((getGormColumnName_spec ⟨"Name", "", .string, [("gorm", "size:20;column:foo;index")]⟩).2
    ["size:20", "column:foo", "index"] (by decide) (by decide) (by decide)).2
    ["size:20"] ["index"] "foo" (by decide)
    (fun s hs hr => by
      have hp := (strings.HasPrefix_iff s "column:").2 hr
      simp only [List.mem_singleton] at hs
      subst hs
      revert hp
      decide)

/-! ## Primary-key resolution -/

theorem find?_map_fst {α β : Type} (p : α → Bool) (l : List (α × β)) (f : α)
    (h : (l.map Prod.fst).find? p = some f) :
    ∃ (a : β) (before after : List (α × β)), l = before ++ (f, a) :: after ∧
      (∀ q ∈ before, p q.1 = false) ∧ p f = true ∧
      l.find? (fun q => p q.1) = some (f, a) := by
  induction l with
  | nil => simp at h
  | cons q rest ih =>
    cases hq : p q.1 with
    | true =>
      have hf : q.1 = f := by simpa [List.find?, hq] using h
      refine ⟨q.2, [], rest, ?_, by simp, hf ▸ hq, ?_⟩
      · simp [← hf]
      · simp [List.find?, hq, ← hf]
    | false =>
      have h2 : (rest.map Prod.fst).find? p = some f := by simpa [List.find?, hq] using h
      obtain ⟨a, before, after, hl, hb, hpf, hfind⟩ := ih h2
      refine ⟨a, q :: before, after, by simp [hl], ?_, hpf, ?_⟩
      · intro r hr
        rcases List.mem_cons.1 hr with rfl | hr
        · exact hq
        · exact hb r hr
      · simp [List.find?, hq, hfind]

/-- C1: for a model that is a struct or a non-nil pointer to a struct and whose
schema parses, when the schema designates a primary-key field that is a field
`f` of the struct, `GetPrimaryKeyValue` returns the value the instance holds in
`f` (the first field of that name) and `GetPrimaryKeyType` returns the declared
type of `f`; when the schema designates none, both fail with the same error of
kind `NoPrimaryKeyFound`. -/
theorem primaryKey_resolution (i : Integrator) (v : StructValue) (model : Model)
    (hmodel : model = .struct v ∨ model = .ptr (.struct v))
    (schema : Schema) (hparse : i.DB.parse (.struct v.Type_) = .ok schema) :
    (∀ (pf : Field) (f : StructField), schema.PrioritizedPrimaryField = some pf →
      v.Type_.FieldByName pf.Name = some f →
      ∃ (a : Any) (before after : List (StructField × Any)),
        v.Fields = before ++ (f, a) :: after ∧ (∀ q ∈ before, q.1.Name ≠ pf.Name) ∧
        f.Name = pf.Name ∧
        i.GetPrimaryKeyValue model = .ok a ∧ i.GetPrimaryKeyType model = .ok f.Type_) ∧
    (schema.PrioritizedPrimaryField = none →
      ∃ e : Error, e.kind = .NoPrimaryKeyFound ∧
        i.GetPrimaryKeyValue model = .err e ∧ i.GetPrimaryKeyType model = .err e) := by
  have hmv : Integrator.modelValue model = .ok (.struct v) := by
    rcases hmodel with rfl | rfl <;> rfl
  have hty : (Model.struct v).Type_ = .struct v.Type_ := rfl
  have hnm : v.Type_.Name = v.Name := rfl
  constructor
  · intro pf f hpf hf
    unfold StructType.FieldByName at hf
    by_cases hname : pf.Name = ""
    · simp [hname] at hf
    · rw [if_neg hname] at hf
      obtain ⟨a, before, after, hl, hb, hpn, hfind⟩ :=
        find?_map_fst (fun f => f.Name == pf.Name) v.Fields f hf
      refine ⟨a, before, after, hl, ?_, by simpa using hpn, ?_, ?_⟩
      · intro q hq
        simpa using hb q hq
      · simp [Integrator.GetPrimaryKeyValue, hmv, hty, hparse, hpf,
          StructValue.FieldByName, hname, hfind]
      · have hf2 : v.Type_.FieldByName pf.Name = some f := by
          simp [StructType.FieldByName, hname, hf]
        simp [Integrator.GetPrimaryKeyType, hmv, hty, hparse, hpf, hf2]
  · intro hnone
    refine ⟨.noPrimaryField v.Name, rfl, ?_, ?_⟩
    · simp [Integrator.GetPrimaryKeyValue, hmv, hty, hparse, hnone, RType.Name, hnm]
    · simp [Integrator.GetPrimaryKeyType, hmv, hty, hparse, hnone, RType.Name, hnm]

/-- Witness of C1: the primary key of a pointer to the sample user, and the
sample note, which has none. -/
theorem primaryKey_resolution_witness :
    (∃ a : Any, Sample.integrator.GetPrimaryKeyValue (.ptr (.struct Sample.user)) = .ok a ∧
      Sample.integrator.GetPrimaryKeyType (.ptr (.struct Sample.user)) = .ok .uint) ∧
    (∃ e : Error, e.kind = .NoPrimaryKeyFound ∧
      Sample.integrator.GetPrimaryKeyValue (.struct Sample.note) = .err e ∧
      Sample.integrator.GetPrimaryKeyType (.struct Sample.note) = .err e) := by
  constructor
  · obtain ⟨a, _, _, _, _, _, h1, h2⟩ :=
      (primaryKey_resolution Sample.integrator Sample.user (.ptr (.struct Sample.user))
        (Or.inr rfl) ⟨some ⟨"ID", "id"⟩⟩ rfl).1 ⟨"ID", "id"⟩
        ⟨"ID", "", .uint, [("gorm", "primaryKey")]⟩ rfl (by decide)
    exact ⟨a, h1, h2⟩
  · exact (primaryKey_resolution Sample.integrator Sample.note (.struct Sample.note)
      (Or.inl rfl) ⟨none⟩ rfl).2 rfl

/-- The shapes the check of lines 25-34 and 60-69 rejects: the nil interface, a
scalar and a nil pointer fail with `InvalidModelShape` in both functions. -/
theorem invalid_shape_rejected (i : Integrator) (model : Model)
    (h : model = .nilInterface ∨ (∃ b, model = .bool b) ∨ (∃ n, model = .int n) ∨
      (∃ s, model = .string s) ∨ (∃ t, model = .nilPtr t)) :
    ∃ e : Error, e.kind = .InvalidModelShape ∧
      i.GetPrimaryKeyValue model = .err e ∧ i.GetPrimaryKeyType model = .err e := by
  rcases h with rfl | ⟨b, rfl⟩ | ⟨n, rfl⟩ | ⟨s, rfl⟩ | ⟨t, rfl⟩
  · exact ⟨.notStructNorPointer, rfl, rfl, rfl⟩
  · exact ⟨.notStructNorPointer, rfl, rfl, rfl⟩
  · exact ⟨.notStructNorPointer, rfl, rfl, rfl⟩
  · exact ⟨.notStructNorPointer, rfl, rfl, rfl⟩
  · exact ⟨.modelPointerNil, rfl, rfl, rfl⟩

/-- A non-nil pointer to anything passes the shape check: whatever the handle
answers, neither function returns an error of kind `InvalidModelShape`. -/
theorem pointer_passes_shape_check (i : Integrator) (target : Model) (e : Error)
    (h : i.GetPrimaryKeyValue (.ptr target) = .err e ∨
      i.GetPrimaryKeyType (.ptr target) = .err e) :
    e.kind ≠ .InvalidModelShape := by
  have hmv : Integrator.modelValue (.ptr target) = .ok target := rfl
  rcases h with h | h
  · simp only [Integrator.GetPrimaryKeyValue, hmv] at h
    split at h
    · cases h; simp [Error.kind]
    · split at h
      · cases h; simp [Error.kind]
      · split at h
        · split at h
          · cases h; simp [Error.kind]
          · cases h
        · cases h
  · simp only [Integrator.GetPrimaryKeyType, hmv] at h
    split at h
    · cases h; simp [Error.kind]
    · split at h
      · cases h; simp [Error.kind]
      · split at h
        · split at h
          · cases h; simp [Error.kind]
          · cases h
        · cases h

/-- C9 at the failing inputs: with a schema parser in the manner of gorm, for a
pointer to the int 5 both functions return the parse failure, an error of kind
`SchemaParseFailed` and not of kind `InvalidModelShape`, and for a pointer to a
pointer to the sample user both functions panic. -/
theorem pointer_to_non_struct_not_invalid_shape :
    Sample.integrator.GetPrimaryKeyValue (.ptr (.int 5))
      = .err (.failedToParse "unsupported data type") ∧
    Sample.integrator.GetPrimaryKeyType (.ptr (.int 5))
      = .err (.failedToParse "unsupported data type") ∧
    (Error.failedToParse "unsupported data type").kind = .SchemaParseFailed ∧
    (Error.failedToParse "unsupported data type").kind ≠ .InvalidModelShape ∧
    Sample.integrator.GetPrimaryKeyValue (.ptr (.ptr (.struct Sample.user))) = .panic ∧
    Sample.integrator.GetPrimaryKeyType (.ptr (.ptr (.struct Sample.user))) = .panic := by
  refine ⟨rfl, rfl, rfl, by decide, rfl, rfl⟩

/-! ## Field projection -/

theorem Integrator.selectFields_ok (t : StructType) (fields : List String)
    (fs : List StructField)
    (h : List.Forall₂ (fun n f => t.FieldByName n = some f) fields fs) :
    Integrator.selectFields t fields = .ok (fs.map getGormColumnName) := by
  induction h with
  | nil => rfl
  | cons hf _ ih => simp [Integrator.selectFields, hf, ih]

theorem Integrator.selectFields_cases (t : StructType) (fields : List String) :
    (∃ fs : List StructField, List.Forall₂ (fun n f => t.FieldByName n = some f) fields fs ∧
      Integrator.selectFields t fields = .ok (fs.map getGormColumnName)) ∨
    (∃ n ∈ fields, t.FieldByName n = none ∧
      Integrator.selectFields t fields = .error (.fieldNotFound n)) := by
  induction fields with
  | nil => exact Or.inl ⟨[], List.Forall₂.nil, rfl⟩
  | cons n rest ih =>
    cases hn : t.FieldByName n with
    | none => exact Or.inr ⟨n, by simp, hn, by simp [Integrator.selectFields, hn]⟩
    | some f =>
      rcases ih with ⟨fs, hfs, hok⟩ | ⟨m, hm, hnone, herr⟩
      · exact Or.inl ⟨f :: fs, List.Forall₂.cons hn hfs,
          by simp [Integrator.selectFields, hn, hok]⟩
      · exact Or.inr ⟨m, List.mem_cons_of_mem _ hm, hnone,
          by simp [Integrator.selectFields, hn, herr]⟩

theorem forall₂_not_none (t : StructType) (fields : List String) (fs : List StructField)
    (h : List.Forall₂ (fun n f => t.FieldByName n = some f) fields fs) :
    ∀ n ∈ fields, t.FieldByName n ≠ none := by
  induction h with
  | nil => simp
  | cons hf _ ih =>
    intro n hn
    rcases List.mem_cons.1 hn with rfl | hn
    · simp [hf]
    · exact ih n hn

theorem Integrator.selectFields_error (t : StructType) (fields : List String)
    (h : ∃ n ∈ fields, t.FieldByName n = none) :
    ∃ n ∈ fields, t.FieldByName n = none ∧
      Integrator.selectFields t fields = .error (.fieldNotFound n) := by
  rcases Integrator.selectFields_cases t fields with ⟨fs, hfs, _⟩ | h2
  · obtain ⟨n, hn, hnone⟩ := h
    exact absurd hnone (forall₂_not_none t fields fs hfs n hn)
  · exact h2

theorem Integrator.searchLoop_ok (t : StructType) (query : String)
    (searchFields : List String) (sfs : List StructField)
    (h : List.Forall₂ (fun n f => t.FieldByName n = some f) searchFields sfs)
    (conds : List String) (args : List Any) :
    Integrator.searchLoop t query searchFields conds args =
      .ok (conds ++ sfs.map (fun f => getGormColumnName f ++ " LIKE ?"),
        args ++ List.replicate searchFields.length (Any.string ("%" ++ query ++ "%"))) := by
  induction h generalizing conds args with
  | nil => simp [Integrator.searchLoop]
  | cons hf _ ih =>
    simp [Integrator.searchLoop, hf, ih, List.replicate_succ]

theorem Integrator.searchLoop_cases (t : StructType) (query : String)
    (searchFields : List String) (conds : List String) (args : List Any) :
    (∃ sfs : List StructField,
      List.Forall₂ (fun n f => t.FieldByName n = some f) searchFields sfs) ∨
    (∃ n ∈ searchFields, t.FieldByName n = none ∧
      Integrator.searchLoop t query searchFields conds args = .error (.fieldNotFound n)) := by
  induction searchFields generalizing conds args with
  | nil => exact Or.inl ⟨[], List.Forall₂.nil⟩
  | cons n rest ih =>
    cases hn : t.FieldByName n with
    | none => exact Or.inr ⟨n, by simp, hn, by simp [Integrator.searchLoop, hn]⟩
    | some f =>
      rcases ih (conds ++ [getGormColumnName f ++ " LIKE ?"])
          (args ++ [Any.string ("%" ++ query ++ "%")]) with ⟨sfs, hsfs⟩ | ⟨m, hm, hnone, herr⟩
      · exact Or.inl ⟨f :: sfs, List.Forall₂.cons hn hsfs⟩
      · exact Or.inr ⟨m, List.mem_cons_of_mem _ hm, hnone,
          by simp [Integrator.searchLoop, hn, herr]⟩

theorem forall₂_of_not_none (t : StructType) (fields : List String)
    (h : ∀ n ∈ fields, t.FieldByName n ≠ none) :
    ∃ fs : List StructField, List.Forall₂ (fun n f => t.FieldByName n = some f) fields fs := by
  induction fields with
  | nil => exact ⟨[], List.Forall₂.nil⟩
  | cons n rest ih =>
    obtain ⟨fs, hfs⟩ := ih (fun m hm => h m (List.mem_cons_of_mem _ hm))
    cases hn : t.FieldByName n with
    | none => exact absurd hn (h n (by simp))
    | some f => exact ⟨f :: fs, List.Forall₂.cons hn hfs⟩

/-- C3: when every requested name is a field of the model type, with `fs` the
fields the names resolve to in request order, the statement
`FetchInstancesOnlyFields` issues selects the `, `-join of the column names of
`fs`; so does the one statement `FetchInstancesOnlyFieldWithSearch` issues when
the search fields exist, and the one `FetchInstanceOnlyFields` issues when the
schema has a primary key. -/
theorem select_list_in_request_order (i : Integrator) (model : StructValue)
    (fields : List String) (fs : List StructField) (w : World)
    (hfields : List.Forall₂ (fun n f => model.Type_.FieldByName n = some f) fields fs) :
    (i.FetchInstancesOnlyFields model fields w).2.calls =
      w.calls ++ [⟨[.Select (strings.Join (fs.map getGormColumnName) ", ")], .Find model⟩] ∧
    (∀ (query : String) (searchFields : List String),
      (∀ n ∈ searchFields, model.Type_.FieldByName n ≠ none) →
      ∃ (predicate : String) (args : List Any),
        (i.FetchInstancesOnlyFieldWithSearch model fields query searchFields w).2.calls =
          w.calls ++ [⟨[.Select (strings.Join (fs.map getGormColumnName) ", "),
            .Where predicate args], .Find model⟩]) ∧
    (∀ (id : Any) (schema : Schema) (pf : Field),
      i.DB.parse (.struct model.Type_) = .ok schema →
      schema.PrioritizedPrimaryField = some pf →
      (i.FetchInstanceOnlyFields model id fields w).2.calls =
        w.calls ++ [⟨[.Select (strings.Join (fs.map getGormColumnName) ", "),
          .Where (pf.DBName ++ " = ?") [id]], .First model⟩]) := by
  have hsel := Integrator.selectFields_ok model.Type_ fields fs hfields
  refine ⟨?_, ?_, ?_⟩
  · simp only [Integrator.FetchInstancesOnlyFields, hsel, World.run]
    split <;> rfl
  · intro query searchFields hsearch
    obtain ⟨sfs, hsfs⟩ := forall₂_of_not_none model.Type_ searchFields hsearch
    have hloop := Integrator.searchLoop_ok model.Type_ query searchFields sfs hsfs [] []
    simp only [List.nil_append] at hloop
    refine ⟨strings.Join (sfs.map (fun f => getGormColumnName f ++ " LIKE ?")) " OR ",
      List.replicate searchFields.length (Any.string ("%" ++ query ++ "%")), ?_⟩
    simp only [Integrator.FetchInstancesOnlyFieldWithSearch, hsel, hloop, World.run]
    split <;> rfl
  · intro id schema pf hparse hpf
    simp only [Integrator.FetchInstanceOnlyFields, hsel, hparse, hpf, World.run]
    split <;> rfl

/-- Witness of C3: the select list for `Email`, `ID`, `Email` on the sample user. -/
theorem select_list_in_request_order_witness :
    (Sample.integrator.FetchInstancesOnlyFields Sample.user ["Email", "ID", "Email"]
      Sample.world).2.calls = [⟨[.Select "email_col, ID, email_col"], .Find Sample.user⟩] :=
  (select_list_in_request_order Sample.integrator Sample.user ["Email", "ID", "Email"]
    [⟨"Email", "", .string, [("gorm", "size:64;column:email_col")]⟩,
     ⟨"ID", "", .uint, [("gorm", "primaryKey")]⟩,
     ⟨"Email", "", .string, [("gorm", "size:64;column:email_col")]⟩] Sample.world
    (List.Forall₂.cons rfl (List.Forall₂.cons rfl (List.Forall₂.cons rfl List.Forall₂.nil)))).1

/-- C4: a field list with a name that is not a field of the model type makes
`FetchInstancesOnlyFields` and `FetchInstanceOnlyFields` return the error of
kind `UnknownField` for such a name and leave the world as it was, no statement
issued; `FetchInstancesOnlyFieldWithSearch` does so when the field list or the
search-field list has such a name. -/
theorem unknown_field_aborts (i : Integrator) (model : StructValue)
    (fields searchFields : List String) (query : String) (id : Any) (w : World) :
    ((∃ n ∈ fields, model.Type_.FieldByName n = none) →
      (∃ n ∈ fields, model.Type_.FieldByName n = none ∧
        (Error.fieldNotFound n).kind = .UnknownField ∧
        i.FetchInstancesOnlyFields model fields w = (.error (.fieldNotFound n), w)) ∧
      (∃ n ∈ fields, model.Type_.FieldByName n = none ∧
        (Error.fieldNotFound n).kind = .UnknownField ∧
        i.FetchInstanceOnlyFields model id fields w = (.error (.fieldNotFound n), w))) ∧
    ((∃ n ∈ fields ++ searchFields, model.Type_.FieldByName n = none) →
      ∃ n ∈ fields ++ searchFields, model.Type_.FieldByName n = none ∧
        (Error.fieldNotFound n).kind = .UnknownField ∧
        i.FetchInstancesOnlyFieldWithSearch model fields query searchFields w
          = (.error (.fieldNotFound n), w)) := by
  constructor
  · intro h
    obtain ⟨n, hn, hnone, herr⟩ := Integrator.selectFields_error model.Type_ fields h
    exact ⟨⟨n, hn, hnone, rfl, by simp [Integrator.FetchInstancesOnlyFields, herr]⟩,
      ⟨n, hn, hnone, rfl, by simp [Integrator.FetchInstanceOnlyFields, herr]⟩⟩
  · rintro ⟨m, hm, hmnone⟩
    rcases Integrator.selectFields_cases model.Type_ fields with ⟨fs, hfs, hok⟩ | ⟨n, hn, hnone, herr⟩
    · rcases Integrator.searchLoop_cases model.Type_ query searchFields [] [] with
        ⟨sfs, hsfs⟩ | ⟨n, hn, hnone, herr⟩
      · rcases List.mem_append.1 hm with hm | hm
        · exact absurd hmnone (forall₂_not_none _ _ _ hfs m hm)
        · exact absurd hmnone (forall₂_not_none _ _ _ hsfs m hm)
      · exact ⟨n, List.mem_append_right _ hn, hnone, rfl,
          by simp [Integrator.FetchInstancesOnlyFieldWithSearch, hok, herr]⟩
    · exact ⟨n, List.mem_append_left _ hn, hnone, rfl,
        by simp [Integrator.FetchInstancesOnlyFieldWithSearch, herr]⟩

/-- Witness of C4: `Phone` is not a field of the sample user. -/
theorem unknown_field_aborts_witness :
    ∃ n, Sample.integrator.FetchInstancesOnlyFields Sample.user ["Name", "Phone", "ID"]
      Sample.world = (.error (.fieldNotFound n), Sample.world) := by
  obtain ⟨n, _, _, _, h⟩ :=
    ((unknown_field_aborts Sample.integrator Sample.user ["Name", "Phone", "ID"] [] ""
      Any.nil Sample.world).1 ⟨"Phone", by decide, by decide⟩).1
  exact ⟨n, h⟩

/-! ## Search predicate -/

/-- C5: when the projected fields and the n search fields all exist, with `sfs`
the fields the search names resolve to in request order, the statement
`FetchInstancesOnlyFieldWithSearch` issues filters by the ` OR `-join of
`<column> LIKE ?` over `sfs`, bound to n arguments that are each the query
between two `%`. -/
theorem search_predicate (i : Integrator) (model : StructValue)
    (fields : List String) (fs : List StructField) (query : String)
    (searchFields : List String) (sfs : List StructField) (w : World)
    (hfields : List.Forall₂ (fun n f => model.Type_.FieldByName n = some f) fields fs)
    (hsearch : List.Forall₂ (fun n f => model.Type_.FieldByName n = some f) searchFields sfs) :
    (i.FetchInstancesOnlyFieldWithSearch model fields query searchFields w).2.calls =
      w.calls ++ [⟨[.Select (strings.Join (fs.map getGormColumnName) ", "),
        .Where (strings.Join (sfs.map (fun f => getGormColumnName f ++ " LIKE ?")) " OR ")
          (List.replicate searchFields.length (Any.string ("%" ++ query ++ "%")))],
        .Find model⟩] := by
  have hsel := Integrator.selectFields_ok model.Type_ fields fs hfields
  have hloop := Integrator.searchLoop_ok model.Type_ query searchFields sfs hsearch [] []
  simp only [List.nil_append] at hloop
  simp only [Integrator.FetchInstancesOnlyFieldWithSearch, hsel, hloop, World.run]
  split <;> rfl

/-- Witness of C5: the search for `bob` over `Name` and `Email` of the sample
user, and the search over no field. -/
theorem search_predicate_witness :
    (Sample.integrator.FetchInstancesOnlyFieldWithSearch Sample.user ["ID"] "bob"
      ["Name", "Email"] Sample.world).2.calls =
      [⟨[.Select "ID", .Where "name_col LIKE ? OR email_col LIKE ?"
        [.string "%bob%", .string "%bob%"]], .Find Sample.user⟩] ∧
    (Sample.integrator.FetchInstancesOnlyFieldWithSearch Sample.user ["ID"] "bob"
      [] Sample.world).2.calls = [⟨[.Select "ID", .Where "" []], .Find Sample.user⟩] :=
  ⟨search_predicate Sample.integrator Sample.user ["ID"]
    [⟨"ID", "", .uint, [("gorm", "primaryKey")]⟩] "bob" ["Name", "Email"]
    [⟨"Name", "", .string, [("json", "name"), ("gorm", "column:name_col")]⟩,
     ⟨"Email", "", .string, [("gorm", "size:64;column:email_col")]⟩] Sample.world
    (List.Forall₂.cons rfl List.Forall₂.nil)
    (List.Forall₂.cons rfl (List.Forall₂.cons rfl List.Forall₂.nil)),
   search_predicate Sample.integrator Sample.user ["ID"]
    [⟨"ID", "", .uint, [("gorm", "primaryKey")]⟩] "bob" [] [] Sample.world
    (List.Forall₂.cons rfl List.Forall₂.nil) List.Forall₂.nil⟩

/-! ## Delete -/

/-- C8: for a model whose schema has a primary key, when the delete statement
reports no error, `DeleteInstance` returns an error exactly when the statement
affected zero rows; that error is of kind `NotFound`, and with a number of rows
other than zero the result is no error. -/
theorem delete_error_iff_no_rows (i : Integrator) (model : StructValue) (instanceID : Any)
    (w : World) (schema : Schema) (pf : Field)
    (hparse : i.DB.parse (.struct model.Type_) = .ok schema)
    (hpf : schema.PrioritizedPrimaryField = some pf)
    (hok : (i.DB.exec ⟨[.WhereMap (GoMap.empty.set pf.DBName instanceID)],
      .Delete model⟩).Error = none) :
    ((∃ e, (i.DeleteInstance model instanceID w).1 = .error e) ↔
      (i.DB.exec ⟨[.WhereMap (GoMap.empty.set pf.DBName instanceID)],
        .Delete model⟩).RowsAffected = 0) ∧
    ((i.DB.exec ⟨[.WhereMap (GoMap.empty.set pf.DBName instanceID)],
        .Delete model⟩).RowsAffected = 0 →
      ∃ e : Error, e.kind = .NotFound ∧ (i.DeleteInstance model instanceID w).1 = .error e) ∧
    ((i.DB.exec ⟨[.WhereMap (GoMap.empty.set pf.DBName instanceID)],
        .Delete model⟩).RowsAffected ≠ 0 →
      (i.DeleteInstance model instanceID w).1 = .ok ()) ∧
    (i.DeleteInstance model instanceID w).2.calls =
      w.calls ++ [⟨[.WhereMap (GoMap.empty.set pf.DBName instanceID)], .Delete model⟩] := by
  by_cases hrows : (i.DB.exec ⟨[.WhereMap (GoMap.empty.set pf.DBName instanceID)],
      .Delete model⟩).RowsAffected = 0
  · have h1 : (i.DeleteInstance model instanceID w).1
        = .error (.noInstanceFound pf.DBName instanceID) := by
      simp [Integrator.DeleteInstance, hparse, hpf, World.run, hok, hrows]
    refine ⟨⟨fun _ => hrows, fun _ => ⟨_, h1⟩⟩,
      fun _ => ⟨.noInstanceFound pf.DBName instanceID, rfl, h1⟩,
      fun h => absurd hrows h, ?_⟩
    simp [Integrator.DeleteInstance, hparse, hpf, World.run, hok, hrows]
  · have h1 : (i.DeleteInstance model instanceID w).1 = .ok () := by
      simp [Integrator.DeleteInstance, hparse, hpf, World.run, hok, hrows]
    refine ⟨⟨?_, fun h => absurd h hrows⟩, fun h => absurd h hrows, fun _ => h1, ?_⟩
    · rintro ⟨e, he⟩
      rw [h1] at he
      cases he
    · simp [Integrator.DeleteInstance, hparse, hpf, World.run, hok, hrows]

/-- Witness of C8: deleting the user 9 where the statement affects no row. -/
theorem delete_error_iff_no_rows_witness :
    ∃ e : Error, e.kind = .NotFound ∧
      (Sample.integratorNoRows.DeleteInstance Sample.user (.int 9) Sample.world).1 = .error e :=
  (delete_error_iff_no_rows Sample.integratorNoRows Sample.user (.int 9) Sample.world
    ⟨some ⟨"ID", "id"⟩⟩ ⟨"ID", "id"⟩ rfl rfl rfl).2.1 rfl

/-! ## Update and create -/

theorem StructValue.Lookup_snd (inst : StructValue) (n : String) :
    (inst.Lookup n).map Prod.snd = inst.FieldByName n := by
  unfold StructValue.Lookup StructValue.FieldByName
  split <;> rfl

theorem Integrator.updateLoop_ok (inst : StructValue) (fields : List String)
    (h : ∀ n ∈ fields, ∃ (f : StructField) (a : Any),
      inst.Lookup n = some (f, a) ∧ f.PkgPath = "") (m0 : GoMap) :
    ∃ m : GoMap, Integrator.updateLoop inst fields m0 = .ok m ∧
      ∀ k, m k = if k ∈ fields then inst.FieldByName k else m0 k := by
  induction fields generalizing m0 with
  | nil => exact ⟨m0, rfl, by simp⟩
  | cons n rest ih =>
    obtain ⟨f, a, hn, hexp⟩ := h n (by simp)
    have hfn : inst.FieldByName n = some a := by
      rw [← StructValue.Lookup_snd, hn]
      rfl
    obtain ⟨m, hm, hk⟩ := ih (fun k hk => h k (List.mem_cons_of_mem _ hk)) (m0.set n a)
    refine ⟨m, by simp [Integrator.updateLoop, hn, hexp, hm], ?_⟩
    intro k
    rw [hk k]
    by_cases hkr : k ∈ rest
    · simp [hkr]
    · by_cases hkn : k = n
      · simp [hkn, GoMap.set, hfn]
      · simp [hkr, hkn, GoMap.set]

/-- C6 fails on an unexported field: `name` is a field of the sample `hidden`
and is not its primary-key field, and updating it with the primary key 1
panics, `fieldValue.Interface()` being called on an unexported field, with no
statement issued. -/
theorem update_only_fields_unexported_panics :
    Sample.hidden.Lookup "name" = some (⟨"name", "main", .string, []⟩, .string "n") ∧
    Sample.integrator.DB.parse (.struct Sample.hidden.Type_) = .ok ⟨some ⟨"ID", "id"⟩⟩ ∧
    Sample.integrator.UpdateInstanceOnlyFields Sample.hidden ["name"] (.int 1) Sample.world
      = (.panic, Sample.world) ∧
    (Sample.integrator.UpdateInstanceOnlyFields Sample.hidden ["name"] (.int 1)
      Sample.world).2.calls = [] :=
  ⟨rfl, rfl, rfl, rfl⟩

/-- C6 as amended: for an instance whose schema has a primary key and a non-empty
list of names of exported fields of the instance without the primary-key
field, `UpdateInstanceOnlyFields` returns what the statement reports and issues
one update on the instance, filtered by `<primary-key column> = ?` bound to the
primary-key argument, whose map sends each requested name to the value the
instance holds for it, the primary-key field name to the primary-key argument,
and has no other key. -/
theorem update_only_fields_payload (i : Integrator) (inst : StructValue)
    (fields : List String) (primaryKey : Any) (w : World) (schema : Schema) (pf : Field)
    (hparse : i.DB.parse (.struct inst.Type_) = .ok schema)
    (hpf : schema.PrioritizedPrimaryField = some pf)
    (hne : fields ≠ [])
    (hexist : ∀ n ∈ fields, ∃ (f : StructField) (a : Any),
      inst.Lookup n = some (f, a) ∧ f.PkgPath = "")
    (hpk : pf.Name ∉ fields) :
    ∃ updateData : GoMap,
      i.UpdateInstanceOnlyFields inst fields primaryKey w =
        (Integrator.errorOf (i.DB.exec
            ⟨[.Model inst, .Where (pf.DBName ++ " = ?") [primaryKey],
              .SelectFields (fields ++ [pf.Name])], .Updates updateData⟩),
          ⟨w.calls ++ [⟨[.Model inst, .Where (pf.DBName ++ " = ?") [primaryKey],
            .SelectFields (fields ++ [pf.Name])], .Updates updateData⟩], w.stdout⟩) ∧
      ∀ k, updateData k =
        if k ∈ fields then inst.FieldByName k
        else if k = pf.Name then some primaryKey else none := by
  obtain ⟨m, hm, hk⟩ := Integrator.updateLoop_ok inst fields hexist GoMap.empty
  have hlen : fields.length ≠ 0 := by simpa using hne
  have hmpk : m pf.Name = none := by simp [hk, hpk, GoMap.empty]
  refine ⟨m.set pf.Name primaryKey, ?_, ?_⟩
  · simp [Integrator.UpdateInstanceOnlyFields, hparse, hpf, hlen, hm, hmpk, World.run]
  · intro k
    by_cases hkf : k ∈ fields
    · have hne2 : k ≠ pf.Name := fun e => hpk (e ▸ hkf)
      simp [GoMap.set, hne2, hk, hkf]
    · by_cases hkp : k = pf.Name
      · simp [GoMap.set, hkp, hpk]
      · simp [GoMap.set, hkp, hk, hkf, GoMap.empty]

/-- Witness of C6 as amended: updating `Email` of the sample user with the
primary key 5. -/
theorem update_only_fields_payload_witness :
    ∃ updateData : GoMap,
      (Sample.integrator.UpdateInstanceOnlyFields Sample.user ["Email"] (.int 5)
        Sample.world).2.calls =
        [⟨[.Model Sample.user, .Where "id = ?" [.int 5], .SelectFields ["Email", "ID"]],
          .Updates updateData⟩] ∧
      updateData "Email" = some (.string "a@b.com") ∧ updateData "ID" = some (.int 5) ∧
      updateData "Name" = none := by
  obtain ⟨m, hcalls, hk⟩ :=
    update_only_fields_payload Sample.integrator Sample.user ["Email"] (.int 5) Sample.world
      ⟨some ⟨"ID", "id"⟩⟩ ⟨"ID", "id"⟩ rfl rfl (by decide)
      (fun n hn => by
        simp only [List.mem_singleton] at hn
        subst hn
        exact ⟨_, _, rfl, rfl⟩)
      (by decide)
  exact ⟨m, congrArg (fun r => r.2.calls) hcalls,
    by rw [hk]; decide, by rw [hk]; decide, by rw [hk]; decide⟩

/-- C7 fails when the caller lists the primary-key field: updating `ID` of the
sample user, whose `ID` is 7, with the primary-key argument 5 filters by
`id = ?` bound to 5 and sets `ID` to 7. -/
theorem update_only_fields_listed_primary_key :
    ∃ updateData : GoMap,
      (Sample.integrator.UpdateInstanceOnlyFields Sample.user ["ID"] (.int 5)
        Sample.world).2.calls =
        [⟨[.Model Sample.user, .Where "id = ?" [.int 5], .SelectFields ["ID"]],
          .Updates updateData⟩] ∧
      updateData "ID" = some (.int 7) ∧ updateData "ID" ≠ some (.int 5) :=
  ⟨GoMap.empty.set "ID" (.int 7), rfl, by decide, by decide⟩

/-- C7 as amended: for an instance whose schema has a primary key and a non-empty
list of names of exported fields of the instance, `UpdateInstanceOnlyFields`
returns what the statement reports and issues one update filtered by
`<primary-key column> = ?` bound to the primary-key argument; its map and its
select list always have the primary-key field, which the map sends to the
primary-key argument when the caller did not list the field and to the value
the instance holds for it when the caller did. -/
theorem update_only_fields_primary_key (i : Integrator) (inst : StructValue)
    (fields : List String) (primaryKey : Any) (w : World) (schema : Schema) (pf : Field)
    (hparse : i.DB.parse (.struct inst.Type_) = .ok schema)
    (hpf : schema.PrioritizedPrimaryField = some pf)
    (hne : fields ≠ [])
    (hexist : ∀ n ∈ fields, ∃ (f : StructField) (a : Any),
      inst.Lookup n = some (f, a) ∧ f.PkgPath = "") :
    ∃ (updateData : GoMap) (selected : List String),
      i.UpdateInstanceOnlyFields inst fields primaryKey w =
        (Integrator.errorOf (i.DB.exec
            ⟨[.Model inst, .Where (pf.DBName ++ " = ?") [primaryKey],
              .SelectFields selected], .Updates updateData⟩),
          ⟨w.calls ++ [⟨[.Model inst, .Where (pf.DBName ++ " = ?") [primaryKey],
            .SelectFields selected], .Updates updateData⟩], w.stdout⟩) ∧
      updateData pf.Name ≠ none ∧ pf.Name ∈ selected ∧
      (pf.Name ∉ fields → updateData pf.Name = some primaryKey) ∧
      (pf.Name ∈ fields → updateData pf.Name = inst.FieldByName pf.Name) := by
  obtain ⟨m, hm, hk⟩ := Integrator.updateLoop_ok inst fields hexist GoMap.empty
  have hlen : fields.length ≠ 0 := by simpa using hne
  by_cases hpk : pf.Name ∈ fields
  · have hmpk : m pf.Name = inst.FieldByName pf.Name := by simp [hk, hpk]
    obtain ⟨f, a, hlook, _⟩ := hexist pf.Name hpk
    have hfn : inst.FieldByName pf.Name = some a := by
      rw [← StructValue.Lookup_snd, hlook]
      rfl
    have hsome : m pf.Name ≠ none := by simp [hmpk, hfn]
    have hisNone : (m pf.Name).isNone = false := by simp [hmpk, hfn]
    refine ⟨m, fields, ?_, hsome, hpk, fun h => absurd hpk h, fun _ => hmpk⟩
    simp [Integrator.UpdateInstanceOnlyFields, hparse, hpf, hlen, hm, hisNone, World.run]
  · have hmpk : m pf.Name = none := by simp [hk, hpk, GoMap.empty]
    refine ⟨m.set pf.Name primaryKey, fields ++ [pf.Name], ?_, by simp [GoMap.set],
      by simp, fun _ => by simp [GoMap.set], fun h => absurd h hpk⟩
    simp [Integrator.UpdateInstanceOnlyFields, hparse, hpf, hlen, hm, hmpk, World.run]

/-- Witness of C7 as amended: updating `ID` and `Email` of the sample user. -/
theorem update_only_fields_primary_key_witness :
    ∃ (updateData : GoMap) (selected : List String),
      (Sample.integrator.UpdateInstanceOnlyFields Sample.user ["ID", "Email"] (.int 5)
        Sample.world).2.calls =
        [⟨[.Model Sample.user, .Where "id = ?" [.int 5], .SelectFields selected],
          .Updates updateData⟩] ∧
      updateData "ID" = some (.int 7) := by
  obtain ⟨m, sel, hcalls, _, _, _, hin⟩ :=
    update_only_fields_primary_key Sample.integrator Sample.user ["ID", "Email"] (.int 5)
      Sample.world ⟨some ⟨"ID", "id"⟩⟩ ⟨"ID", "id"⟩ rfl rfl (by decide)
      (fun n hn => by
        simp only [List.mem_cons, List.mem_singleton, List.not_mem_nil, or_false] at hn
        rcases hn with rfl | rfl
        · exact ⟨_, _, rfl, rfl⟩
        · exact ⟨_, _, rfl, rfl⟩)
  exact ⟨m, sel, congrArg (fun r => r.2.calls) hcalls, by rw [hin (by decide)]; decide⟩

/-- C10: with the empty field list `UpdateInstanceOnlyFields` returns what
`UpdateInstance` returns and leaves the same world, and `CreateInstanceOnlyFields`
does as `CreateInstance`; the update is, for a schema with a primary key, the
save of the instance filtered by `<primary-key column> = ?` bound to the
primary-key argument, and the create is the insert of the instance without a
select list. -/
theorem empty_field_list_is_unprojected (i : Integrator) (inst : StructValue)
    (primaryKey : Any) (w : World) :
    i.UpdateInstanceOnlyFields inst [] primaryKey w = i.UpdateInstance inst primaryKey w ∧
    i.CreateInstanceOnlyFields inst [] w = i.CreateInstance inst w ∧
    (∀ (schema : Schema) (pf : Field), i.DB.parse (.struct inst.Type_) = .ok schema →
      schema.PrioritizedPrimaryField = some pf →
      i.UpdateInstanceOnlyFields inst [] primaryKey w =
        (Integrator.errorOf (i.DB.exec
            ⟨[.Model inst, .Where (pf.DBName ++ " = ?") [primaryKey]], .Save inst⟩),
          ⟨w.calls ++ [⟨[.Model inst, .Where (pf.DBName ++ " = ?") [primaryKey]], .Save inst⟩],
            w.stdout⟩)) ∧
    i.CreateInstanceOnlyFields inst [] w =
      (Integrator.errorOf (i.DB.exec ⟨[], .Create inst⟩),
        ⟨w.calls ++ [⟨[], .Create inst⟩], w.stdout⟩) := by
  refine ⟨?_, rfl, ?_, rfl⟩
  · simp only [Integrator.UpdateInstanceOnlyFields, Integrator.UpdateInstance,
      List.length_nil, if_true]
  · intro schema pf hparse hpf
    simp [Integrator.UpdateInstanceOnlyFields, hparse, hpf, World.run]

/-- Witness of C10: the update of the sample user with no field list. -/
theorem empty_field_list_is_unprojected_witness :
    (Sample.integrator.UpdateInstanceOnlyFields Sample.user [] (.int 5) Sample.world).2.calls =
      [⟨[.Model Sample.user, .Where "id = ?" [.int 5]], .Save Sample.user⟩] :=
  congrArg (fun r => r.2.calls)
    ((empty_field_list_is_unprojected Sample.integrator Sample.user (.int 5) Sample.world).2.2.1
      ⟨some ⟨"ID", "id"⟩⟩ ⟨"ID", "id"⟩ rfl rfl)

end admingorm
